import Mathlib

/-!
VocabBuilder — verification of the word-persistence and query layer.

Shallow embedding of the extension's core:
* `Word` and the Word Store operations from `background.js`
  (`saveWord`, `getWords`, `deleteWord`) acting on the persisted
  `vocab_words` list (an absent/uninitialized key is modelled as `[]`,
  matching the `result.vocab_words || []` default in every operation);
* the status-move operation from the popup's modal-move-btn handler in
  `popup.js`;
* the Query/Filter Engine (status filter and search filter) from
  `renderWordList` in `popup.js`;
* the Translation Gateway (`translateWord` in `background.js`) with the
  HTTP fetch outcome as an explicit oracle;
* the Message Router (`chrome.runtime.onMessage` listener in
  `background.js`);
* the capture flow (`saveWord` in `content.js`) that builds Word records.

Statuses are stored as the literal strings "learn" and "know"; these
realize the specification's two-valued enum (spelled `learning` / `known`
at the logical level).
-/

/-- A vocabulary record, with exactly the fields built by `saveWord` in
`content.js` and persisted under the `vocab_words` key. -/
structure Word where
  id : String
  original : String
  translation : String
  description : String
  status : String
  sourceLang : String
  timestamp : Nat
  sourceUrl : String
  sourceDomain : String
deriving DecidableEq, Repr

/-- JavaScript string defaulting `v || dflt`: an absent (undefined) or
empty (falsy) string falls back to the default. -/
def jsOrStr : Option String → String → String
  | none, d => d
  | some s, d => if s = "" then d else s

/-- `saveWord` in `background.js`: `words.unshift(wordData)` prepends the
record to the persisted list. -/
def saveWord (wordData : Word) (words : List Word) : List Word :=
  wordData :: words

/-- `getWords` in `background.js`: returns the persisted list. -/
def getWords (words : List Word) : List Word :=
  words

/-- `deleteWord` in `background.js`:
`(result.vocab_words || []).filter(w => w.id !== wordId)`. -/
def deleteWord (wordId : String) (words : List Word) : List Word :=
  words.filter (fun w => w.id != wordId)

/-- The popup's modal-move-btn handler (`popup.js`): locate the first
record whose `id` matches (`findIndex`) and overwrite its `status` field;
when no record matches (`idx === -1`) the store is left untouched. -/
def updateStatus (words : List Word) (id newStatus : String) : List Word :=
  match words with
  | [] => []
  | w :: rest =>
    if w.id = id then { w with status := newStatus } :: rest
    else w :: updateStatus rest id newStatus

/-- C1: starting from any store state, a sequence of inserts followed by
`list()` returns the inserted records most-recent-first (the reverse of
the insertion sequence) with the previously stored records preserved,
in order, behind them: each insert prepends. -/
theorem insert_sequence_most_recent_first (init ws : List Word) :
    getWords (ws.foldl (fun st w => saveWord w st) init) = ws.reverse ++ init := by
  induction ws generalizing init with
  | nil => simp [getWords]
  | cons w ws ih =>
    simp only [List.foldl_cons, List.reverse_cons, List.append_assoc]
    rw [ih (saveWord w init)]
    simp [saveWord]

/-- C6: deleting an id that is absent from the store leaves the list
unchanged (and raises no error), and deleting the same id twice gives the
same store state as deleting it once. -/
theorem deleteWord_absent_noop (words : List Word) (wordId : String)
    (h : ∀ w ∈ words, w.id ≠ wordId) :
    deleteWord wordId words = words ∧
      deleteWord wordId (deleteWord wordId words) = deleteWord wordId words := by
  have hall : deleteWord wordId words = words := by
    apply List.filter_eq_self.mpr
    intro w hw
    simpa [bne_iff_ne] using h w hw
  exact ⟨hall, by rw [hall, hall]⟩

def wCat : Word :=
  { id := "1", original := "cat", translation := "qit", description := "",
    status := "learn", sourceLang := "en", timestamp := 1000,
    sourceUrl := "https://example.com/a", sourceDomain := "example.com" }

def wFlor : Word :=
  { id := "2", original := "flor", translation := "zahra", description := "flower",
    status := "know", sourceLang := "es", timestamp := 2000,
    sourceUrl := "https://example.com/b", sourceDomain := "example.com" }

/-- Witness for C6: deleting the absent id "9" from a concrete two-record
store is a no-op and idempotent. -/
theorem deleteWord_absent_noop_witness :
    deleteWord "9" [wCat, wFlor] = [wCat, wFlor] ∧
      deleteWord "9" (deleteWord "9" [wCat, wFlor]) = deleteWord "9" [wCat, wFlor] :=
  deleteWord_absent_noop [wCat, wFlor] "9" (by decide)

/-- C9: `deleteById` removes every record whose id equals the argument —
nothing with the deleted id survives — while every record with a
different id survives; so even duplicated ids are all removed at once. -/
theorem deleteWord_removes_all (words : List Word) (wordId : String) :
    (∀ w ∈ deleteWord wordId words, w.id ≠ wordId) ∧
      (∀ w ∈ words, w.id ≠ wordId → w ∈ deleteWord wordId words) := by
  constructor
  · intro w hw
    have := (List.mem_filter.mp hw).2
    simpa [bne_iff_ne] using this
  · intro w hw hne
    exact List.mem_filter.mpr ⟨hw, by simpa [bne_iff_ne] using hne⟩

def wCatDup : Word :=
  { id := "1", original := "gato", translation := "", description := "duplicate id",
    status := "know", sourceLang := "es", timestamp := 3000,
    sourceUrl := "", sourceDomain := "" }

/-- Witness for C9: in a store where two distinct records share id "1",
a single delete of "1" removes both, and the record with id "2" stays. -/
theorem deleteWord_removes_all_witness :
    wCat ∉ deleteWord "1" [wCat, wCatDup, wFlor] ∧
      wCatDup ∉ deleteWord "1" [wCat, wCatDup, wFlor] ∧
      wFlor ∈ deleteWord "1" [wCat, wCatDup, wFlor] := by
  refine ⟨fun hmem => ?_, fun hmem => ?_, ?_⟩
  · exact (deleteWord_removes_all [wCat, wCatDup, wFlor] "1").1 wCat hmem (by decide)
  · exact (deleteWord_removes_all [wCat, wCatDup, wFlor] "1").1 wCatDup hmem (by decide)
  · exact (deleteWord_removes_all [wCat, wCatDup, wFlor] "1").2 wFlor (by decide) (by decide)

/-- Status filter of the dashboard (`renderWordList` in `popup.js`):
`.filter(w => w.status === currentTab)`; the spec's `byStatus`. -/
def byStatus (words : List Word) (status : String) : List Word :=
  words.filter (fun w => w.status = status)

/-- C2: `updateStatus` replaces only the `status` field of the (first)
record matching the id: the records before it, the records after it, and
every other field of the updated record (`id`, `timestamp`, `original`,
`translation`, `description`, `sourceLang`, `sourceUrl`, `sourceDomain`)
are unchanged; and if the id is absent from the store the whole store is
unchanged (a no-op, not an error). -/
theorem updateStatus_frame (words l1 l2 : List Word) (w : Word) (id s : String) :
    ((∀ v ∈ words, v.id ≠ id) → updateStatus words id s = words) ∧
      (words = l1 ++ w :: l2 → (∀ v ∈ l1, v.id ≠ id) → w.id = id →
        updateStatus words id s = l1 ++ { w with status := s } :: l2) ∧
      ({ w with status := s }.status = s ∧
        { w with status := s }.id = w.id ∧
        { w with status := s }.timestamp = w.timestamp ∧
        { w with status := s }.original = w.original ∧
        { w with status := s }.translation = w.translation ∧
        { w with status := s }.description = w.description ∧
        { w with status := s }.sourceLang = w.sourceLang ∧
        { w with status := s }.sourceUrl = w.sourceUrl ∧
        { w with status := s }.sourceDomain = w.sourceDomain) := by
  refine ⟨?_, ?_, rfl, rfl, rfl, rfl, rfl, rfl, rfl, rfl, rfl⟩
  · intro h
    induction words with
    | nil => rfl
    | cons v rest ih =>
      have hv : v.id ≠ id := h v (List.mem_cons_self v rest)
      simp only [updateStatus, if_neg hv]
      rw [ih (fun u hu => h u (List.mem_cons_of_mem v hu))]
  · intro heq hfront hid
    subst heq
    induction l1 with
    | nil => simp [updateStatus, hid]
    | cons v rest ih =>
      have hv : v.id ≠ id := hfront v (List.mem_cons_self v rest)
      simp only [List.cons_append, updateStatus, if_neg hv]
      exact congrArg (List.cons v) (ih (fun u hu => hfront u (List.mem_cons_of_mem v hu)))

/-- Witness for C2: in the concrete store `[wCat, wFlor]`, moving id "2"
to "learn" rewrites exactly the second record's status, and updating the
absent id "9" is a no-op. -/
theorem updateStatus_frame_witness :
    updateStatus [wCat, wFlor] "2" "learn" = [wCat, { wFlor with status := "learn" }] ∧
      updateStatus [wCat, wFlor] "9" "learn" = [wCat, wFlor] :=
  ⟨(updateStatus_frame [wCat, wFlor] [wCat] [] wFlor "2" "learn").2.1 rfl (by decide) rfl,
    (updateStatus_frame [wCat, wFlor] [] [] wCat "9" "learn").1 (by decide)⟩

/-- C4: over any input sequence of Word records (whose `status`, per the
data model, is one of the two enum values — stored as "learn" for
`learning` and "know" for `known`), the records kept by the `learning`
status filter together with those kept by the `known` status filter are
exactly the input as a set, and the two results are disjoint. -/
theorem byStatus_partition (words : List Word)
    (h : ∀ w ∈ words, w.status = "learn" ∨ w.status = "know") :
    (∀ w, (w ∈ byStatus words "learn" ∨ w ∈ byStatus words "know") ↔ w ∈ words) ∧
      (∀ w, w ∈ byStatus words "learn" → w ∉ byStatus words "know") := by
  constructor
  · intro w
    constructor
    · rintro (hw | hw) <;> exact (List.mem_filter.mp hw).1
    · intro hw
      rcases h w hw with hs | hs
      · exact Or.inl (List.mem_filter.mpr ⟨hw, by simp [hs]⟩)
      · exact Or.inr (List.mem_filter.mpr ⟨hw, by simp [hs]⟩)
  · intro w hl hk
    have h1 := (List.mem_filter.mp hl).2
    have h2 := (List.mem_filter.mp hk).2
    simp only [decide_eq_true_eq] at h1 h2
    exact absurd (h1 ▸ h2) (by decide)

/-- Witness for C4: the partition property instantiated on the concrete
two-record store `[wCat, wFlor]` (one `learning`, one `known` record). -/
theorem byStatus_partition_witness :
    (∀ w, (w ∈ byStatus [wCat, wFlor] "learn" ∨ w ∈ byStatus [wCat, wFlor] "know") ↔
        w ∈ [wCat, wFlor]) ∧
      (∀ w, w ∈ byStatus [wCat, wFlor] "learn" → w ∉ byStatus [wCat, wFlor] "know") :=
  byStatus_partition [wCat, wFlor] (by decide)

/-- Character-list version of a starts-with test: the JS
`String.prototype.includes` anchor check at one position. -/
def isPrefixList : List Char → List Char → Bool
  | [], _ => true
  | _ :: _, [] => false
  | a :: as, b :: bs => a = b && isPrefixList as bs

/-- JS `hay.includes(needle)`: some suffix of the haystack starts with
the needle (the empty needle is contained in every string). -/
def listSubstr (needle : List Char) : List Char → Bool
  | [] => needle.isEmpty
  | c :: t => isPrefixList needle (c :: t) || listSubstr needle t

/-- JS `hay.includes(needle)` on strings. -/
def jsIncludes (hay needle : String) : Bool :=
  listSubstr needle.data hay.data

/-- JS `s.toLowerCase()`, modelled per character. -/
def jsToLower (s : String) : String :=
  ⟨s.data.map Char.toLower⟩

/-- JS `s.trim()`: strip whitespace from both ends. -/
def jsTrim (s : String) : String :=
  ⟨((s.data.dropWhile Char.isWhitespace).reverse.dropWhile Char.isWhitespace).reverse⟩

/-- The search predicate of `renderWordList` in `popup.js`, applied to the
already-normalized `searchQuery`:
`w.original.toLowerCase().includes(searchQuery) ||
 w.translation?.toLowerCase().includes(searchQuery) ||
 w.description?.toLowerCase().includes(searchQuery)`. -/
def wordMatches (searchQuery : String) (w : Word) : Bool :=
  jsIncludes (jsToLower w.original) searchQuery ||
    jsIncludes (jsToLower w.translation) searchQuery ||
    jsIncludes (jsToLower w.description) searchQuery

/-- The dashboard's search filter as wired in `popup.js`: the raw query
is normalized by the search-input handler
(`searchQuery = e.target.value.trim().toLowerCase()`), and
`renderWordList` keeps every record when the stored query is empty
(`if (!searchQuery) return true`), otherwise applies the field match. -/
def bySearch (words : List Word) (query : String) : List Word :=
  let searchQuery := jsToLower (jsTrim query)
  words.filter (fun w => searchQuery = "" || wordMatches searchQuery w)

/-- The search predicate in the specification's words: the query is a
case-insensitive substring of `original`, or of `translation`, or of
`description` (any one match suffices). -/
def specSearchMatch (query : String) (w : Word) : Bool :=
  jsIncludes (jsToLower w.original) (jsToLower query) ||
    jsIncludes (jsToLower w.translation) (jsToLower query) ||
    jsIncludes (jsToLower w.description) (jsToLower query)

theorem listSubstr_nil_needle (l : List Char) : listSubstr [] l = true := by
  induction l with
  | nil => rfl
  | cons c t ih => simp [listSubstr, isPrefixList]

theorem jsIncludes_empty_needle (hay : String) : jsIncludes hay "" = true :=
  listSubstr_nil_needle hay.data

theorem wordMatches_empty (w : Word) : wordMatches "" w = true := by
  simp [wordMatches, jsIncludes_empty_needle]

/-- C7 counterexample: with the single stored record `wCat` (whose
`original` is "cat"), the query " cat" (leading space) is kept by the
code's search filter even though it is not a case-insensitive substring
of any of the record's three searched fields — the code trims the query
first, so `bySearch` disagrees with the claim's substring criterion. -/
theorem bySearch_substring_claim_counterexample :
    wCat ∈ bySearch [wCat] " cat" ∧
      specSearchMatch " cat" wCat = false ∧
      bySearch [wCat] " cat" ≠ List.filter (specSearchMatch " cat") [wCat] := by
  refine ⟨by decide, by decide, ?_⟩
  decide

/-- C7 amended: `bySearch` keeps exactly the records for which the
*trimmed* query is a case-insensitive substring of `original`, or of
`translation`, or of `description` (any one match suffices), and the
empty query is the identity. -/
theorem bySearch_trimmed_substring (words : List Word) (query : String) :
    bySearch words query = List.filter (specSearchMatch (jsTrim query)) words ∧
      bySearch words "" = words := by
  constructor
  · have hunfold : bySearch words query =
        words.filter (fun w =>
          decide (jsToLower (jsTrim query) = "") ||
            wordMatches (jsToLower (jsTrim query)) w) := rfl
    rw [hunfold]
    apply List.filter_congr
    intro w _
    have hrfl : specSearchMatch (jsTrim query) w =
        wordMatches (jsToLower (jsTrim query)) w := rfl
    rw [hrfl]
    by_cases hq : jsToLower (jsTrim query) = ""
    · rw [hq, wordMatches_empty w]
      simp
    · simp [hq]
  · have hunfold : bySearch words "" =
        words.filter (fun w => decide (("" : String) = "") || wordMatches "" w) := rfl
    rw [hunfold]
    simp

/-- Result record of `translateWord` in `background.js`:
`{ translation, detectedLang }`. -/
structure TranslationResult where
  translation : String
  detectedLang : String
deriving DecidableEq, Repr

/-- Outcome of the `fetch` to the translation endpoint, as observed by
`translateWord`: either `!response.ok` (non-success HTTP status), or a
parsed JSON body from which the code reads `data[0]` (the segment array,
projected to each item's first element) and `data[2]` (the detected
language); either may be absent. -/
inductive FetchOutcome where
  | notOk
  | ok (seg : Option (List String)) (lang : Option String)
deriving DecidableEq, Repr

/-- `translateWord` in `background.js`: throws `Error('Translation
failed')` when `!response.ok`; otherwise computes
`translation = data[0]?.map(item => item[0]).join('') || word` and
`detectedLang = data[2] || 'en'`. -/
def translateWord (word : String) (targetLang : String) (fetch : FetchOutcome) :
    Except String TranslationResult :=
  match targetLang, fetch with
  | _, FetchOutcome.notOk => Except.error "Translation failed"
  | _, FetchOutcome.ok seg lang =>
    Except.ok { translation := jsOrStr (seg.map String.join) word,
                detectedLang := jsOrStr lang "en" }

/-- C5: on a successful endpoint response, `translateWord` never fails:
it returns a result whose translation is non-empty whenever the original
word is, and whenever the endpoint yielded an empty-string or missing
translation segment the original word itself is returned as the
translation. -/
theorem translateWord_empty_falls_back (word targetLang : String)
    (seg : Option (List String)) (lang : Option String) (hw : word ≠ "") :
    ∃ t, translateWord word targetLang (FetchOutcome.ok seg lang) = Except.ok t ∧
      t.translation ≠ "" ∧
      ((match seg with | none => "" | some items => String.join items) = "" →
        t.translation = word) := by
  refine ⟨_, rfl, ?_, ?_⟩
  · show jsOrStr (seg.map String.join) word ≠ ""
    match seg with
    | none => exact hw
    | some items =>
      show (if String.join items = "" then word else String.join items) ≠ ""
      by_cases hj : String.join items = ""
      · simpa [hj] using hw
      · simp [hj]
  · intro hempty
    match seg with
    | none => rfl
    | some items =>
      show (if String.join items = "" then word else String.join items) = word
      simp only at hempty
      simp [hempty]

/-- Witness for C5: a successful response whose only segment is the empty
string yields a successful translation equal to the original "hola". -/
theorem translateWord_empty_falls_back_witness :
    ∃ t, translateWord "hola" "en" (FetchOutcome.ok (some [""]) none) = Except.ok t ∧
      t.translation ≠ "" ∧
      ((match some [""] with | none => "" | some items => String.join items) = "" →
        t.translation = "hola") :=
  translateWord_empty_falls_back "hola" "en" (some [""]) none (by decide)

/-- A request envelope as received by the `chrome.runtime.onMessage`
listener: the `type` tag plus the payload fields the four handlers read
(`word`/`targetLang` for TRANSLATE, `wordData` for SAVE_WORD, `wordId`
for DELETE_WORD; GET_WORDS carries no payload). -/
structure Message where
  type : String
  word : String
  targetLang : String
  wordData : Word
  wordId : String
deriving Repr

/-- The data carried by a successful router response: the translation
result for TRANSLATE, the word list for GET_WORDS, and no data for
SAVE_WORD / DELETE_WORD (their responses are just `{success: true}`). -/
inductive RouterData where
  | translation (t : TranslationResult)
  | words (ws : List Word)
  | noData
deriving DecidableEq, Repr

/-- A response sent via `sendResponse`: `{success: true, ...}` or
`{success: false, error: err.message}`. -/
inductive RouterResponse where
  | success (d : RouterData)
  | failure (error : String)
deriving DecidableEq, Repr

/-- The Message Router (`chrome.runtime.onMessage` listener in
`background.js`): string-dispatch on `message.type` over the four
request kinds, each sending exactly one response and possibly updating
the persisted store; a message of any other type falls through every
`if` and is never answered (`none`). The fetch outcome of the
translation endpoint is passed as an explicit oracle. -/
def onMessage (st : List Word) (msg : Message) (fetch : FetchOutcome) :
    Option (RouterResponse × List Word) :=
  if msg.type = "TRANSLATE" then
    some (match translateWord msg.word msg.targetLang fetch with
      | .ok t => (.success (.translation t), st)
      | .error e => (.failure e, st))
  else if msg.type = "SAVE_WORD" then
    some (.success .noData, saveWord msg.wordData st)
  else if msg.type = "GET_WORDS" then
    some (.success (.words (getWords st)), st)
  else if msg.type = "DELETE_WORD" then
    some (.success .noData, deleteWord msg.wordId st)
  else
    none

/-- C3: every request envelope of one of the four request kinds is
dispatched to exactly one handler and answered with exactly one
response, which is either a success or a failure carrying a non-empty
error message; in particular a failed translation fetch (e.g. HTTP 500)
is answered `{success: false, error: "Translation failed"}`. -/
theorem onMessage_total_and_shaped (st : List Word) (msg : Message)
    (fetch : FetchOutcome)
    (h : msg.type = "TRANSLATE" ∨ msg.type = "SAVE_WORD" ∨
      msg.type = "GET_WORDS" ∨ msg.type = "DELETE_WORD") :
    ∃ r st2, onMessage st msg fetch = some (r, st2) ∧
      ((∃ d, r = RouterResponse.success d) ∨
        (∃ e, r = RouterResponse.failure e ∧ e ≠ "")) := by
  rcases h with h | h | h | h
  · match fetch with
    | .notOk =>
      refine ⟨.failure "Translation failed", st, ?_, Or.inr ⟨_, rfl, by decide⟩⟩
      simp [onMessage, h, translateWord]
    | .ok seg lang =>
      refine ⟨.success (.translation
        { translation := jsOrStr (seg.map String.join) msg.word,
          detectedLang := jsOrStr lang "en" }), st, ?_, Or.inl ⟨_, rfl⟩⟩
      simp [onMessage, h, translateWord]
  · exact ⟨.success .noData, saveWord msg.wordData st,
      by simp [onMessage, h], Or.inl ⟨_, rfl⟩⟩
  · exact ⟨.success (.words (getWords st)), st,
      by simp [onMessage, h], Or.inl ⟨_, rfl⟩⟩
  · exact ⟨.success .noData, deleteWord msg.wordId st,
      by simp [onMessage, h], Or.inl ⟨_, rfl⟩⟩

def msgTranslate : Message :=
  { type := "TRANSLATE", word := "hola", targetLang := "en",
    wordData := wCat, wordId := "" }

/-- Witness for C3: the HTTP-500 scenario — a TRANSLATE request whose
fetch is not ok is answered with exactly one response, a failure with a
non-empty error message. -/
theorem onMessage_total_and_shaped_witness :
    ∃ r st2, onMessage [] msgTranslate FetchOutcome.notOk = some (r, st2) ∧
      ((∃ d, r = RouterResponse.success d) ∨
        (∃ e, r = RouterResponse.failure e ∧ e ≠ "")) :=
  onMessage_total_and_shaped [] msgTranslate FetchOutcome.notOk (Or.inl rfl)

/-- The capture flow's record builder (`saveWord` in `content.js`): the
generated `id`, `timestamp` and page provenance are environment inputs;
`translation` and `description` default to `''` (their callers always
pass strings, so the `|| ''` is the identity here); `sourceLang` uses
`sourceLang || 'unknown'` and may be absent (the error path calls
`saveWord` without it). -/
def makeWordData (word status translation description : String)
    (sourceLang : Option String) (id : String) (timestamp : Nat)
    (sourceUrl sourceDomain : String) : Word :=
  { id := id, original := word, translation := translation,
    description := description, status := status,
    sourceLang := jsOrStr sourceLang "unknown",
    timestamp := timestamp, sourceUrl := sourceUrl,
    sourceDomain := sourceDomain }

/-- C10: when the endpoint response lacks a detected-language value
(`data[2]` absent or falsy), `translateWord` succeeds with
`detectedLang = "en"` — the literal "en", not the sentinel "unknown" —
and a word captured from that response (which passes the truthy
`detectedLang` through `sourceLang || 'unknown'`) carries
`sourceLang = "en"` even though the source language was never
determined. -/
theorem translateWord_missing_lang_defaults_en (word targetLang : String)
    (seg : Option (List String)) (lang : Option String)
    (h : lang = none ∨ lang = some "") :
    ∃ t, translateWord word targetLang (FetchOutcome.ok seg lang) = Except.ok t ∧
      t.detectedLang = "en" ∧ t.detectedLang ≠ "unknown" ∧
      (∀ status translation description id ts url dom,
        (makeWordData word status translation description (some t.detectedLang)
          id ts url dom).sourceLang = "en") := by
  rcases h with h | h <;> subst h <;>
    exact ⟨_, rfl, rfl, (show ("en" : String) ≠ "unknown" by decide),
      fun status translation description id ts url dom => rfl⟩

/-- Witness for C10: a response with a translation segment but no
detected-language element yields `detectedLang = "en"`, and the captured
record's `sourceLang` is "en". -/
theorem translateWord_missing_lang_defaults_en_witness :
    ∃ t, translateWord "bonjour" "ar" (FetchOutcome.ok (some ["hello"]) none) =
        Except.ok t ∧
      t.detectedLang = "en" ∧ t.detectedLang ≠ "unknown" ∧
      (∀ status translation description id ts url dom,
        (makeWordData "bonjour" status translation description
          (some t.detectedLang) id ts url dom).sourceLang = "en") :=
  translateWord_missing_lang_defaults_en "bonjour" "ar" (some ["hello"]) none
    (Or.inl rfl)

/-- The store mutations reachable through the extension's UI: the two
capture buttons of `content.js` (Learn saves status 'learn', Know saves
status 'know'), the popup's status-move, the popup's single-record
delete, and the popup's clear-all. -/
inductive StoreOp where
  | capture (learnBtn : Bool) (word translation description : String)
      (sourceLang : Option String) (id : String) (ts : Nat) (url dom : String)
  | move (id : String)
  | delete (id : String)
  | clearAll
deriving Repr

/-- One UI-reachable mutation of the persisted `vocab_words` list. The
move case mirrors the modal-move-btn handler: the new status is computed
from the selected record as
`selectedWord.status === 'learn' ? 'know' : 'learn'` and written onto
the first record with that id. -/
def applyOp (st : List Word) : StoreOp → List Word
  | .capture learnBtn word tr ds sl id ts url dom =>
    saveWord
      (makeWordData word (if learnBtn then "learn" else "know") tr ds sl id ts url dom)
      st
  | .move id =>
    match st.find? (fun w => w.id = id) with
    | none => st
    | some w => updateStatus st id (if w.status = "learn" then "know" else "learn")
  | .delete id => deleteWord id st
  | .clearAll => []

/-- Store states reachable from the initial (absent, i.e. empty) store
by a sequence of UI operations. -/
def runOps (ops : List StoreOp) : List Word :=
  ops.foldl applyOp []

theorem updateStatus_status_closed (words : List Word) (id s : String)
    (hs : s = "learn" ∨ s = "know")
    (h : ∀ w ∈ words, w.status = "learn" ∨ w.status = "know") :
    ∀ w ∈ updateStatus words id s, w.status = "learn" ∨ w.status = "know" := by
  induction words with
  | nil => intro w hw; cases hw
  | cons v rest ih =>
    intro w hw
    simp only [updateStatus] at hw
    by_cases hv : v.id = id
    · rw [if_pos hv] at hw
      rcases List.mem_cons.mp hw with hw | hw
      · subst hw; exact hs
      · exact h w (List.mem_cons_of_mem v hw)
    · rw [if_neg hv] at hw
      rcases List.mem_cons.mp hw with hw | hw
      · exact hw ▸ h v (List.mem_cons_self v rest)
      · exact ih (fun u hu => h u (List.mem_cons_of_mem v hu)) w hw

theorem applyOp_status_closed (st : List Word) (op : StoreOp)
    (h : ∀ w ∈ st, w.status = "learn" ∨ w.status = "know") :
    ∀ w ∈ applyOp st op, w.status = "learn" ∨ w.status = "know" := by
  match op with
  | .capture learnBtn word tr ds sl id ts url dom =>
    intro w hw
    rcases List.mem_cons.mp hw with hw | hw
    · subst hw
      by_cases hb : learnBtn = true
      · exact Or.inl (by simp [makeWordData, hb])
      · exact Or.inr (by simp [makeWordData, hb])
    · exact h w hw
  | .move id =>
    intro w hw
    have hw2 : w ∈ (match st.find? (fun x => x.id = id) with
        | none => st
        | some v => updateStatus st id (if v.status = "learn" then "know" else "learn")) :=
      hw
    rcases hfind : st.find? (fun x => x.id = id) with _ | v
    · rw [hfind] at hw2
      exact h w hw2
    · rw [hfind] at hw2
      refine updateStatus_status_closed st id _ ?_ h w hw2
      by_cases hv : v.status = "learn" <;> simp [hv]
  | .delete id =>
    intro w hw
    exact h w (List.mem_filter.mp hw).1
  | .clearAll =>
    intro w hw
    cases hw

/-- C8: in every store state reachable through the extension's
operations (capture via the Learn/Know buttons, status-move, delete,
clear-all) from the initial empty store, every record's `status` is one
of exactly the two enum values — stored as the strings "learn"
(`learning`) and "know" (`known`); no operation ever produces a third
status value. -/
theorem reachable_status_two_valued (ops : List StoreOp) :
    ∀ w ∈ runOps ops, w.status = "learn" ∨ w.status = "know" := by
  suffices hgen : ∀ (ops : List StoreOp) (st : List Word),
      (∀ w ∈ st, w.status = "learn" ∨ w.status = "know") →
      ∀ w ∈ ops.foldl applyOp st, w.status = "learn" ∨ w.status = "know" by
    exact hgen ops [] (fun w hw => absurd hw (List.not_mem_nil w))
  intro ops
  induction ops with
  | nil => intro st h; exact h
  | cons op rest ih =>
    intro st h
    exact ih (applyOp st op) (applyOp_status_closed st op h)

/-- Witness for C8: the store reached by capturing "cat" with the Learn
button and then moving its status contains only two-valued statuses;
applied here to the record the move produced. -/
theorem reachable_status_two_valued_witness :
    (makeWordData "cat" "know" "qit" "" (some "en") "1" 1000 "u" "d").status = "learn" ∨
      (makeWordData "cat" "know" "qit" "" (some "en") "1" 1000 "u" "d").status = "know" :=
  reachable_status_two_valued
    [StoreOp.capture true "cat" "qit" "" (some "en") "1" 1000 "u" "d",
      StoreOp.move "1"]
    (makeWordData "cat" "know" "qit" "" (some "en") "1" 1000 "u" "d")
    (by decide)
